import Mathlib

/-!
Shallow embedding of `src/registration_checker.py` (Michigan voter
registration checker).

Modelling conventions:

* Python strings are Lean `String`s (in this toolchain a `String` is a
  packed `List Char`, so all string operations are executable and
  kernel-reducible).
* `Voter.__init__` raising (`ValueError` from `int(...)` or the
  field-count check) is modelled by `parse : String → Option Voter`
  returning `none`.
* Python `int(...)` on a string is modelled by `charsToInt?`, accepting
  an optional sign followed by one or more ASCII digits.  (CPython
  additionally strips whitespace and permits underscores; no claim
  depends on those inputs, and the serializer never produces them.)
* A 5-field record whose month field is the empty string leaves
  `self.birth_month` as the falsy string `""` in Python.  That value is
  observationally identical to `None` in every use the program makes of
  it (truthiness in `__str__` and in the batch filter, `==` against an
  `int` is `False`), so the model normalises it to `none`.
* Python object semantics: `Voter` defines `__hash__` but **no**
  `__eq__`, so `==` on two `Voter` objects falls back to object
  identity.  The engine is therefore modelled with an explicit heap: a
  `store : List Voter` addressed by object ids (`Nat`), and the Python
  sets of `Voter` objects become lists of ids (insertion-ordered, added
  at most once), since with identity equality a set of objects is
  exactly a set of ids.  `list(some_set)` is modelled as that
  insertion-ordered list; CPython's actual set iteration order is
  hash-table dependent and unspecified, which matters only for claims
  about the *order* of the returned list.
* The network and the remote service are modelled by
  `Net : ApiArgs → Nat → Option String`: for a given request argument
  dictionary, the outcome of the n-th attempt (`none` = the attempt
  raised a transport exception, `some page` = the response body).
  `asyncio.gather` returns results in task-creation order, so the
  bounded fan-out is modelled as an order-preserving map; the semaphore
  and the inter-attempt `time.sleep(5)` affect scheduling and timing
  only, not any value the program computes.
-/

/-- Character for a single decimal digit (Python `repr` of ints uses these). -/
def digitChar : Nat → Char
  | 0 => '0'
  | 1 => '1'
  | 2 => '2'
  | 3 => '3'
  | 4 => '4'
  | 5 => '5'
  | 6 => '6'
  | 7 => '7'
  | 8 => '8'
  | 9 => '9'
  | _ => '*'

/-- Numeric value of an ASCII digit character. -/
def digitVal (c : Char) : Nat := c.toNat - 48

/-- Is `c` an ASCII decimal digit? -/
def isDigitCh (c : Char) : Bool := 48 ≤ c.toNat && c.toNat ≤ 57

/-- Decimal rendering of a positive natural, most significant digit first.
The first argument is structural fuel; `fuel ≥ n` suffices. -/
def natToCharsAux : Nat → Nat → List Char
  | 0, _ => []
  | fuel + 1, n =>
    if n = 0 then [] else natToCharsAux fuel (n / 10) ++ [digitChar (n % 10)]

/-- Decimal rendering of a natural number, as Python `str`/f-strings produce. -/
def natToChars (n : Nat) : List Char :=
  if n = 0 then ['0'] else natToCharsAux n n

/-- Value of a digit string (left fold with accumulator, as positional value). -/
def charsVal : List Char → Nat → Nat
  | [], acc => acc
  | c :: cs, acc => charsVal cs (acc * 10 + digitVal c)

/-- Parse an unsigned decimal string; `none` unless it is one or more digits. -/
def charsToNat? (l : List Char) : Option Nat :=
  if !l.isEmpty && l.all isDigitCh then some (charsVal l 0) else none

/-- Decimal rendering of an integer (Python `repr`: optional `-` then digits). -/
def intToChars (n : Int) : List Char :=
  if n < 0 then '-' :: natToChars n.natAbs else natToChars n.toNat

/-- Model of Python `int(s)` on a string: optional sign then digits. -/
def charsToInt? (l : List Char) : Option Int :=
  match l with
  | [] => none
  | c :: rest =>
    if c = '-' then (charsToNat? rest).map (fun k : Nat => -(k : Int))
    else if c = '+' then (charsToNat? rest).map (fun k : Nat => (k : Int))
    else (charsToNat? (c :: rest)).map (fun k : Nat => (k : Int))

/-- Model of Python `str.split(',')`: split at every comma, keeping empty
pieces; the result always has at least one piece. -/
def splitComma : List Char → List (List Char)
  | [] => [[]]
  | c :: rest =>
    if c = ',' then [] :: splitComma rest
    else
      match splitComma rest with
      | [] => [[c]]
      | p :: ps => (c :: p) :: ps

/-- Join pieces with single commas (the shape an f-string like
`f"{a},{b},{c}"` produces). -/
def joinComma : List (List Char) → List Char
  | [] => []
  | [p] => p
  | p :: ps => p ++ ',' :: joinComma ps

/-- One person record (`class Voter`).  `birth_month = none` models Python
`None` (and the observationally equivalent falsy `""`, see the header). -/
structure Voter where
  first : String
  last : String
  birth_month : Option Int
  birth_year : Int
  zip : String
deriving DecidableEq, Repr

instance : Inhabited Voter := ⟨⟨"", "", none, 0, ""⟩⟩

/-- Model of `Voter.__init__(entry)`: split on commas; 4 fields mean the
month is unknown; 5 fields carry a month unless it is the placeholder
`"Unknown"` (or empty, see header note); the year (and a present month)
must parse as integers, otherwise construction raises (`none`). -/
def parse (record : String) : Option Voter :=
  match splitComma record.toList with
  | [f, l, y, z] =>
    match charsToInt? y with
    | some yi => some ⟨String.mk f, String.mk l, none, yi, String.mk z⟩
    | none => none
  | [f, l, mo, y, z] =>
    match charsToInt? y with
    | some yi =>
      if mo = "Unknown".toList ∨ mo = [] then
        some ⟨String.mk f, String.mk l, none, yi, String.mk z⟩
      else
        match charsToInt? mo with
        | some mi => some ⟨String.mk f, String.mk l, some mi, yi, String.mk z⟩
        | none => none
    | none => none
  | _ => none

/-- Month field as `__str__` renders it: a falsy month (`None` or `0`)
prints as `"Unknown"`, anything else as its decimal digits. -/
def monthStr : Option Int → List Char
  | none => "Unknown".toList
  | some m => if m = 0 then "Unknown".toList else intToChars m

/-- Model of `Voter.__str__`:
`f"{first},{last},{month or Unknown},{year},{zip}"`. -/
def serialize (v : Voter) : String :=
  String.mk (joinComma
    [v.first.toList, v.last.toList, monthStr v.birth_month,
     intToChars v.birth_year, v.zip.toList])

/-- The string `Voter.__hash__` hashes:
`' - '.join([first, last, str(birth_year), zip])`.  Python hashes this
string, so equal keys give equal hashes (the claim direction used here). -/
def voterHashKey (v : Voter) : String :=
  String.intercalate " - "
    [v.first, v.last, String.mk (intToChars v.birth_year), v.zip]

/-- Python `==` on two `Voter` objects (ids `i`, `j` into the heap `hp`):
the class defines no `__eq__`, so comparison falls back to object
identity. -/
def pyVoterEq (_hp : List Voter) (i j : Nat) : Bool :=
  i == j

/-- The argument dictionary built by `Voter.get_api_args`. -/
structure ApiArgs where
  FirstName : String
  LastName : String
  NameBirthMonth : Int
  NameBirthYear : Int
  ZipCode : String
  Dln : String
  DlnBirthMonth : String
  DlnBirthYear : String
  DpaID : String
  Months : String
  VoterNotFound : String
  TransistionVoter : String
deriving DecidableEq, Repr

instance : Inhabited ApiArgs :=
  ⟨⟨"", "", 0, 0, "", "", "0", "", "0", "", "false", "false"⟩⟩

/-- Model of `Voter.get_api_args(month)`; the last seven entries are the
fixed auxiliary fields copied from the browser request. -/
def Voter.get_api_args (v : Voter) (month : Int) : ApiArgs :=
  { FirstName := v.first
    LastName := v.last
    NameBirthMonth := month
    NameBirthYear := v.birth_year
    ZipCode := v.zip
    Dln := ""
    DlnBirthMonth := "0"
    DlnBirthYear := ""
    DpaID := "0"
    Months := ""
    VoterNotFound := "false"
    TransistionVoter := "false" }

/-- Network model: per request-argument dictionary, the outcome of each
attempt (`none` = transport exception, `some page` = response body). -/
abbrev Net := ApiArgs → Nat → Option String

/-- Retry loop of `_api_call`: starting at attempt index `i` with `r`
attempts remaining, return (number of attempts actually made, result). -/
def apiCallAux (f : Nat → Option String) : Nat → Nat → Nat × Option String
  | _, 0 => (0, none)
  | i, r + 1 =>
    match f i with
    | some s => (1, some s)
    | none =>
      let p := apiCallAux f (i + 1) r
      (p.1 + 1, p.2)

/-- Model of `RegistrationAPIExecutor._api_call`: up to 5 attempts
(`for attempt_no in range(5)`), returning the first successful response
text, or `None` after the 5th failure. -/
def api_call (f : Nat → Option String) : Nat × Option String :=
  apiCallAux f 0 5

/-- Model of `RegistrationAPIExecutor.api_multi_call`: one `_api_call`
task per argument dictionary; `asyncio.gather` returns the results in
task-creation order, i.e. in input order. -/
def api_multi_call (net : Net) (args : List ApiArgs) : List (Option String) :=
  args.map fun a => (api_call (net a)).2

/-- Is `pre` a prefix of `l`? (model of the inner step of Python `in`). -/
def isPrefixCh : List Char → List Char → Bool
  | [], _ => true
  | _ :: _, [] => false
  | a :: as, b :: bs => a == b && isPrefixCh as bs

/-- Model of Python `marker in page` (contiguous substring test). -/
def containsSub (page : String) (marker : List Char) : Bool :=
  page.toList.tails.any (isPrefixCh marker)

/-- The literal registration marker the code searches for. -/
def registeredMarker : List Char := "Yes, you are registered!".toList

/-- The literal absentee-application marker the code searches for. -/
def avMarker : List Char :=
  "Your clerk has not recorded receiving your AV Application.".toList

/-- Engine state in `get_voters_with_absentee_ballots`.  `store` is the
heap of `Voter` objects addressed by id; `active` models the local
`voters` list; `registered` models the set `registered_voters`;
`ballots` models the set `voters_with_ballots` (both sets of object
ids, insertion-ordered, see the header). -/
structure EngineState where
  store : List Voter
  active : List Nat
  registered : List Nat
  ballots : List Nat
deriving DecidableEq, Repr

/-- Python `set.add` on an identity-keyed set of object ids. -/
def insertId (l : List Nat) (i : Nat) : List Nat :=
  if l.contains i then l else l ++ [i]

/-- Mutate `voter.birth_month = m` on the heap object with id `i`. -/
def setMonth (hp : List Voter) (i : Nat) (m : Int) : List Voter :=
  hp.set i { hp.getD i default with birth_month := some m }

/-- Loop body of lines 93-98: classify one `(voter, response_page)` pair.
`if response_page and 'Yes, you are registered!' in response_page:` add
to `registered_voters`; nested
`if avMarker not in response_page:` set the month and add to
`voters_with_ballots`.  (A `None` page, like a falsy empty page, matches
no marker.) -/
def classifyPair (month : Int) (st : EngineState) (p : Nat × Option String) :
    EngineState :=
  match p.2 with
  | none => st
  | some page =>
    if containsSub page registeredMarker then
      let st1 := { st with registered := insertId st.registered p.1 }
      if containsSub page avMarker then st1
      else
        { st1 with
          store := setMonth st1.store p.1 month
          ballots := insertId st1.ballots p.1 }
    else st

/-- Truthiness filter of lines 90-91:
`not voter.birth_month or voter.birth_month == month` (note that a
stored month `0` is falsy and so always passes). -/
def monthTruthyEq (bm : Option Int) (month : Int) : Bool :=
  match bm with
  | none => true
  | some b => b == 0 || b == month

/-- The candidate batch of one round: ids of active voters whose month is
falsy or equals this round's month (lines 90-91). -/
def candidateBatch (st : EngineState) (month : Int) : List Nat :=
  st.active.filter fun i => monthTruthyEq (st.store.getD i default).birth_month month

/-- The argument dictionaries dispatched in one round, one per batch entry. -/
def roundArgs (st : EngineState) (month : Int) : List ApiArgs :=
  (candidateBatch st month).map fun i =>
    (st.store.getD i default).get_api_args month

/-- One iteration of the month loop (lines 89-100).  Note the source zips
the full `voters` list against responses computed for the *filtered*
batch (`zip(voters, responses)` on line 93); this is modelled exactly. -/
def roundStep (net : Net) (st : EngineState) (month : Int) : EngineState :=
  let responses := api_multi_call net (roundArgs st month)
  let st2 := (st.active.zip responses).foldl (classifyPair month) st
  { st2 with active := st2.active.filter fun i => !(st2.registered.contains i) }

/-- The twelve months tried, in loop order (`range(1, 13)`). -/
def months : List Int := (List.range 12).map fun i => (i : Int) + 1

/-- Initial engine state for an input list of voters: the heap holds the
objects, all of them active, both sets empty. -/
def initState (voters : List Voter) : EngineState :=
  { store := voters
    active := List.range voters.length
    registered := []
    ballots := [] }

/-- Full month loop of `get_voters_with_absentee_ballots`. -/
def runEngine (net : Net) (st : EngineState) : EngineState :=
  months.foldl (roundStep net) st

/-- State after the first `k` rounds of the month loop. -/
def afterRounds (net : Net) (st : EngineState) (k : Nat) : EngineState :=
  (months.take k).foldl (roundStep net) st

/-- Trace helper: the states after each executed round, one per month the
loop body runs for. -/
def traceAux (net : Net) : EngineState → List Int → List EngineState
  | _, [] => []
  | st, m :: ms =>
    let st2 := roundStep net st m
    st2 :: traceAux net st2 ms

/-- The per-round state trace of the month loop; its length is the number
of executed rounds (the `for` loop has no `break`). -/
def roundStates (net : Net) (st : EngineState) : List EngineState :=
  traceAux net st months

/-- Model of `RegistrationAPIExecutor.get_voters_with_absentee_ballots`:
run the 12-round loop and return `list(voters_with_ballots)` (the
accumulated target-group objects, in the model's insertion order). -/
def get_voters_with_absentee_ballots (net : Net) (voters : List Voter) :
    List Voter :=
  let fin := runEngine net (initState voters)
  fin.ballots.map fun i => fin.store.getD i default

/-- Core of `RegistrationChecker.get_voters_with_ballots` (minus file
I/O): call the engine, then
`voters_with_absentee_ballots.sort(key=lambda v: v.birth_year)` —
Python's stable sort, modelled by `List.mergeSort`. -/
def get_voters_with_ballots (net : Net) (voters : List Voter) : List Voter :=
  (get_voters_with_absentee_ballots net voters).mergeSort
    fun a b => decide (a.birth_year ≤ b.birth_year)

/-- Example page: contains the registration marker only. -/
def pageReg : String := "Yes, you are registered!"

/-- Example page: contains the registration marker and the AV marker. -/
def pageBoth : String :=
  "Yes, you are registered! Your clerk has not recorded receiving your AV Application."

/-- Service stub answering every request, every attempt, with `pageReg`. -/
def netReg : Net := fun _ _ => some pageReg

/-- Service stub answering every request with `pageBoth`. -/
def netBoth : Net := fun _ _ => some pageBoth

/-- Service stub whose every attempt fails with a transport error. -/
def netFail : Net := fun _ _ => none

/-- Attempt outcomes that always fail (for the retry-count results). -/
def attemptsFail : Nat → Option String := fun _ => none

/-- Attempt outcomes failing twice and succeeding on the third attempt. -/
def attemptsThird : Nat → Option String :=
  fun i => if i = 2 then some "ok" else none

/-- Example voter with a known birth month (5-field input). -/
def voterA : Voter := ⟨"Ann", "Arbor", some 2, 1950, "48104"⟩

/-- Example voter with an unknown birth month (4-field input). -/
def voterB : Voter := ⟨"Bob", "Beal", none, 1960, "48823"⟩

/-- Example voter, unknown month, born 1990. -/
def voterX : Voter := ⟨"Xena", "Young", none, 1990, "48104"⟩

/-- Example voter, unknown month, born 1985. -/
def voterY : Voter := ⟨"Yuri", "Zed", none, 1985, "48105"⟩

/-- Example voter differing from `voterM2` only in `birth_month`. -/
def voterM1 : Voter := ⟨"John", "Doe", some 1, 1950, "48104"⟩

/-- Example voter differing from `voterM1` only in `birth_month`. -/
def voterM2 : Voter := ⟨"John", "Doe", some 2, 1950, "48104"⟩

theorem engine_sanity :
    (get_voters_with_absentee_ballots netReg [voterX, voterY]).map
      Voter.birth_month = [some 1, some 1] := by decide

/-- Digit characters decode back to their value. -/
theorem digitVal_digitChar : ∀ d, d < 10 → digitVal (digitChar d) = d := by
  decide

/-- Digit characters are recognised as digits. -/
theorem isDigitCh_digitChar : ∀ d, d < 10 → isDigitCh (digitChar d) = true := by
  decide

/-- No digit character is a comma. -/
theorem digitChar_ne_comma (d : Nat) : digitChar d ≠ ',' := by
  unfold digitChar
  split <;> decide

/-- Every character the decimal renderer emits is a digit. -/
theorem natToCharsAux_all_digits :
    ∀ fuel n, (natToCharsAux fuel n).all isDigitCh = true := by
  intro fuel
  induction fuel with
  | zero => intro n; rfl
  | succ fuel ih =>
    intro n
    unfold natToCharsAux
    split
    · rfl
    · rename_i hn
      simp only [List.all_append, List.all_cons, List.all_nil, Bool.and_true,
        Bool.and_eq_true]
      exact ⟨ih (n / 10), isDigitCh_digitChar (n % 10) (Nat.mod_lt n (by omega))⟩

/-- The decimal renderer emits something for every nonzero input with
enough fuel. -/
theorem natToCharsAux_ne_nil :
    ∀ fuel n, n ≠ 0 → n ≤ fuel → natToCharsAux fuel n ≠ [] := by
  intro fuel
  cases fuel with
  | zero => intro n hn hle; omega
  | succ fuel =>
    intro n hn _
    unfold natToCharsAux
    rw [if_neg hn]
    simp

/-- Appending one digit multiplies the accumulated value by ten. -/
theorem charsVal_append_digit (l : List Char) (c : Char) :
    ∀ acc, charsVal (l ++ [c]) acc = charsVal l acc * 10 + digitVal c := by
  induction l with
  | nil => intro acc; rfl
  | cons d ds ih => intro acc; simpa [charsVal] using ih (acc * 10 + digitVal d)

/-- Decoding the rendered digits of `n` recovers `n`. -/
theorem charsVal_natToCharsAux :
    ∀ fuel n, n ≤ fuel → charsVal (natToCharsAux fuel n) 0 = n := by
  intro fuel
  induction fuel with
  | zero => intro n h; interval_cases n; rfl
  | succ fuel ih =>
    intro n h
    unfold natToCharsAux
    split
    · rename_i h0; simp [charsVal, h0]
    · rename_i h0
      rw [charsVal_append_digit, ih (n / 10) (by omega),
        digitVal_digitChar (n % 10) (Nat.mod_lt n (by omega))]
      omega

/-- All characters of `natToChars n` are digits. -/
theorem natToChars_all_digits (n : Nat) :
    (natToChars n).all isDigitCh = true := by
  unfold natToChars
  split
  · rfl
  · exact natToCharsAux_all_digits n n

/-- The rendering of a natural number is nonempty. -/
theorem natToChars_ne_nil (n : Nat) : natToChars n ≠ [] := by
  unfold natToChars
  split
  · simp
  · rename_i h; exact natToCharsAux_ne_nil n n h (Nat.le_refl n)

/-- Parsing an unsigned decimal rendering recovers the number. -/
theorem charsToNat?_natToChars (n : Nat) :
    charsToNat? (natToChars n) = some n := by
  unfold charsToNat?
  rw [if_pos]
  · congr 1
    unfold natToChars
    split
    · rename_i h0; simp [charsVal, digitVal, h0]
    · exact charsVal_natToCharsAux n n (Nat.le_refl n)
  · rw [natToChars_all_digits, Bool.and_true, Bool.not_eq_true',
      List.isEmpty_eq_false]
    exact natToChars_ne_nil n

/-- A digit character is none of the special characters the parser and
joiner treat specially. -/
theorem isDigitCh_ne (c : Char) (h : isDigitCh c = true) :
    c ≠ '-' ∧ c ≠ '+' ∧ c ≠ ',' ∧ c ≠ 'U' := by
  refine ⟨?_, ?_, ?_, ?_⟩ <;>
    · intro he
      rw [he] at h
      exact absurd h (by decide)

/-- The rendering of a natural number starts with a digit. -/
theorem natToChars_head_digit (n : Nat) :
    ∃ c cs, natToChars n = c :: cs ∧ isDigitCh c = true := by
  have hne := natToChars_ne_nil n
  have hall := natToChars_all_digits n
  cases hl : natToChars n with
  | nil => exact absurd hl hne
  | cons c cs =>
    refine ⟨c, cs, rfl, ?_⟩
    rw [hl] at hall
    simp only [List.all_cons, Bool.and_eq_true] at hall
    exact hall.1

/-- Parsing the decimal rendering of an integer recovers the integer
(Python `int(str(n)) == n`). -/
theorem charsToInt?_intToChars (n : Int) : charsToInt? (intToChars n) = some n := by
  unfold intToChars
  split
  · rename_i hneg
    simp only [charsToInt?, if_true, charsToNat?_natToChars, Option.map_some']
    have : -((n.natAbs : Nat) : Int) = n := by omega
    rw [this]
  · rename_i hpos
    obtain ⟨c, cs, hl, hc⟩ := natToChars_head_digit n.toNat
    rw [hl]
    simp only [charsToInt?]
    obtain ⟨h1, h2, -, -⟩ := isDigitCh_ne c hc
    rw [if_neg h1, if_neg h2, ← hl, charsToNat?_natToChars]
    simp only [Option.map_some']
    have : ((n.toNat : Nat) : Int) = n := by omega
    rw [this]

/-- No comma appears in the rendering of a natural number. -/
theorem natToChars_no_comma (n : Nat) : ',' ∉ natToChars n := by
  intro hmem
  have hall := natToChars_all_digits n
  rw [List.all_eq_true] at hall
  exact absurd (hall _ hmem) (by decide)

/-- No comma appears in the rendering of an integer. -/
theorem intToChars_no_comma (n : Int) : ',' ∉ intToChars n := by
  unfold intToChars
  split
  · intro hmem
    rcases List.mem_cons.mp hmem with h | h
    · exact absurd h (by decide)
    · exact natToChars_no_comma _ h
  · exact natToChars_no_comma _

/-- The rendering of an integer is not the placeholder `"Unknown"` and is
not empty. -/
theorem intToChars_not_unknown (n : Int) :
    ¬(intToChars n = "Unknown".toList ∨ intToChars n = []) := by
  intro hor
  have hshape : ∃ c cs, intToChars n = c :: cs ∧ (c = '-' ∨ isDigitCh c = true) := by
    unfold intToChars
    split
    · exact ⟨'-', _, rfl, Or.inl rfl⟩
    · obtain ⟨c, cs, hl, hc⟩ := natToChars_head_digit n.toNat
      exact ⟨c, cs, hl, Or.inr hc⟩
  obtain ⟨c, cs, hl, hc⟩ := hshape
  rcases hor with h | h
  · rw [hl] at h
    have hcU : c = 'U' := by
      have : "Unknown".toList = 'U' :: "nknown".toList := rfl
      rw [this] at h
      exact (List.cons.injEq _ _ _ _ ▸ h).1
    rcases hc with h1 | h1
    · rw [hcU] at h1; exact absurd h1 (by decide)
    · exact absurd hcU (isDigitCh_ne c h1).2.2.2
  · rw [hl] at h; exact List.cons_ne_nil c cs h

/-- No comma appears in the rendered month field. -/
theorem monthStr_no_comma (bm : Option Int) : ',' ∉ monthStr bm := by
  cases bm with
  | none => decide
  | some m =>
    simp only [monthStr]
    split
    · decide
    · exact intToChars_no_comma m

/-- `split` always yields at least one piece. -/
theorem splitComma_ne_nil : ∀ l, splitComma l ≠ [] := by
  intro l
  induction l with
  | nil => simp [splitComma]
  | cons c rest ih =>
    unfold splitComma
    split
    · simp
    · cases h : splitComma rest with
      | nil => simp
      | cons p ps => simp

/-- Prepending comma-free characters extends the first piece of a split. -/
theorem splitComma_append (p : List Char) :
    ∀ l q qs, ',' ∉ p → splitComma l = q :: qs →
      splitComma (p ++ l) = (p ++ q) :: qs := by
  induction p with
  | nil => intro l q qs _ h; simpa using h
  | cons c cp ih =>
    intro l q qs hnc h
    have hc : ¬(c = ',') := fun he => hnc (he ▸ List.mem_cons_self c cp)
    have hcp : ',' ∉ cp := fun hm => hnc (List.mem_cons_of_mem c hm)
    simp only [List.cons_append]
    unfold splitComma
    rw [if_neg hc, ih l q qs hcp h]

/-- Splitting a comma-join of comma-free pieces recovers the pieces. -/
theorem splitComma_joinComma :
    ∀ ps, ps ≠ [] → (∀ p ∈ ps, ',' ∉ p) → splitComma (joinComma ps) = ps := by
  intro ps
  induction ps with
  | nil => intro h; exact absurd rfl h
  | cons p rest ih =>
    intro _ hnc
    cases rest with
    | nil =>
      show splitComma (joinComma [p]) = [p]
      have hj : joinComma [p] = p ++ [] := by simp [joinComma]
      rw [hj]
      have h2 := splitComma_append p [] [] []
        (hnc p (List.mem_cons_self p [])) rfl
      simpa using h2
    | cons q qs =>
      have hjoin : joinComma (p :: q :: qs) = p ++ ',' :: joinComma (q :: qs) := rfl
      rw [hjoin]
      have hrest : splitComma (',' :: joinComma (q :: qs)) =
          [] :: splitComma (joinComma (q :: qs)) := rfl
      have hih : splitComma (joinComma (q :: qs)) = q :: qs :=
        ih (by simp) (fun r hr => hnc r (List.mem_cons_of_mem p hr))
      have := splitComma_append p (',' :: joinComma (q :: qs)) [] (q :: qs)
        (hnc p (List.mem_cons_self p _)) (by rw [hrest, hih])
      simpa using this

/-- Every piece a split produces is comma-free. -/
theorem splitComma_no_comma : ∀ l p, p ∈ splitComma l → ',' ∉ p := by
  intro l
  induction l with
  | nil =>
    intro p hp
    simp only [splitComma, List.mem_singleton] at hp
    simp [hp]
  | cons c rest ih =>
    intro p hp
    unfold splitComma at hp
    split at hp
    · rcases List.mem_cons.mp hp with h | h
      · simp [h]
      · exact ih p h
    · rename_i hc
      cases hsp : splitComma rest with
      | nil => exact absurd hsp (splitComma_ne_nil rest)
      | cons q qs =>
        rw [hsp] at hp
        rcases List.mem_cons.mp hp with h | h
        · subst h
          intro hm
          rcases List.mem_cons.mp hm with h1 | h1
          · exact hc h1.symm
          · exact ih q (hsp ▸ List.mem_cons_self q qs) h1
        · exact ih p (hsp ▸ List.mem_cons_of_mem q h)

/-- Repacking the characters of a string gives the string back. -/
theorem stringMk_toList (s : String) : String.mk s.toList = s := rfl

/-- The string fields of any successfully constructed voter are comma-free
(they are pieces of a comma-split). -/
theorem parse_fields_no_comma (r : String) (v : Voter) (h : parse r = some v) :
    ',' ∉ v.first.toList ∧ ',' ∉ v.last.toList ∧ ',' ∉ v.zip.toList := by
  unfold parse at h
  split at h
  · rename_i f l y z heq
    split at h
    · rename_i yi hy
      obtain rfl : Voter.mk (String.mk f) (String.mk l) none yi (String.mk z) = v :=
        Option.some.inj h
      refine ⟨?_, ?_, ?_⟩
      · exact splitComma_no_comma _ f (by rw [heq]; simp)
      · exact splitComma_no_comma _ l (by rw [heq]; simp)
      · exact splitComma_no_comma _ z (by rw [heq]; simp)
    · exact absurd h (by simp)
  · rename_i f l mo y z heq
    split at h
    · rename_i yi hy
      split at h
      · obtain rfl : Voter.mk (String.mk f) (String.mk l) none yi (String.mk z) = v :=
          Option.some.inj h
        refine ⟨?_, ?_, ?_⟩
        · exact splitComma_no_comma _ f (by rw [heq]; simp)
        · exact splitComma_no_comma _ l (by rw [heq]; simp)
        · exact splitComma_no_comma _ z (by rw [heq]; simp)
      · split at h
        · rename_i mi hmo
          obtain rfl : Voter.mk (String.mk f) (String.mk l) (some mi) yi (String.mk z) = v :=
            Option.some.inj h
          refine ⟨?_, ?_, ?_⟩
          · exact splitComma_no_comma _ f (by rw [heq]; simp)
          · exact splitComma_no_comma _ l (by rw [heq]; simp)
          · exact splitComma_no_comma _ z (by rw [heq]; simp)
        · exact absurd h (by simp)
    · exact absurd h (by simp)
  · exact absurd h (by simp)

/-- Split of a serialized voter, given comma-free string fields. -/
theorem splitComma_serialize (v : Voter)
    (h1 : ',' ∉ v.first.toList) (h2 : ',' ∉ v.last.toList)
    (h3 : ',' ∉ v.zip.toList) :
    splitComma (serialize v).toList =
      [v.first.toList, v.last.toList, monthStr v.birth_month,
       intToChars v.birth_year, v.zip.toList] := by
  show splitComma (joinComma _) = _
  apply splitComma_joinComma _ (by simp)
  intro p hp
  simp only [List.mem_cons, List.not_mem_nil, or_false] at hp
  rcases hp with h | h | h | h | h
  · exact h ▸ h1
  · exact h ▸ h2
  · exact h ▸ monthStr_no_comma v.birth_month
  · exact h ▸ intToChars_no_comma v.birth_year
  · exact h ▸ h3

/-- Re-parsing a serialized voter succeeds and reproduces the voter up to
normalising a falsy month (`None` or `0`) to `None`. -/
theorem parse_serialize (v : Voter)
    (h1 : ',' ∉ v.first.toList) (h2 : ',' ∉ v.last.toList)
    (h3 : ',' ∉ v.zip.toList) :
    parse (serialize v) =
      some ⟨v.first, v.last,
        (v.birth_month.bind fun m => if m = 0 then none else some m),
        v.birth_year, v.zip⟩ := by
  have hsplit := splitComma_serialize v h1 h2 h3
  have hps : parse (serialize v) =
      (match charsToInt? (intToChars v.birth_year) with
       | some yi =>
         if monthStr v.birth_month = "Unknown".toList ∨ monthStr v.birth_month = [] then
           some ⟨String.mk v.first.toList, String.mk v.last.toList, none, yi,
             String.mk v.zip.toList⟩
         else
           match charsToInt? (monthStr v.birth_month) with
           | some mi =>
             some ⟨String.mk v.first.toList, String.mk v.last.toList, some mi, yi,
               String.mk v.zip.toList⟩
           | none => none
       | none => none) := by
    unfold parse
    rw [hsplit]
  rw [charsToInt?_intToChars] at hps
  have hps2 : parse (serialize v) =
      (if monthStr v.birth_month = "Unknown".toList ∨ monthStr v.birth_month = [] then
         some ⟨String.mk v.first.toList, String.mk v.last.toList, none, v.birth_year,
           String.mk v.zip.toList⟩
       else
         match charsToInt? (monthStr v.birth_month) with
         | some mi =>
           some ⟨String.mk v.first.toList, String.mk v.last.toList, some mi, v.birth_year,
             String.mk v.zip.toList⟩
         | none => none) := hps
  rw [stringMk_toList, stringMk_toList, stringMk_toList] at hps2
  cases hbm : v.birth_month with
  | none =>
    rw [hbm] at hps2
    rw [hps2, if_pos (show monthStr none = "Unknown".toList ∨ monthStr none = [] from
      Or.inl rfl)]
    rfl
  | some m =>
    by_cases hm : m = 0
    · subst hm
      rw [hbm] at hps2
      rw [hps2, if_pos (show monthStr (some 0) = "Unknown".toList ∨
        monthStr (some 0) = [] from Or.inl rfl)]
      rfl
    · rw [hbm] at hps2
      have hmu : monthStr (some m) = intToChars m := by
        simp only [monthStr, if_neg hm]
      rw [hmu] at hps2
      rw [hps2, if_neg (intToChars_not_unknown m), charsToInt?_intToChars]
      simp [Option.bind, hm]

/-- Classification never touches the `active` list. -/
theorem classifyPair_active (month : Int) (st : EngineState)
    (p : Nat × Option String) : (classifyPair month st p).active = st.active := by
  unfold classifyPair
  split
  · rfl
  · split
    · split <;> rfl
    · rfl

/-- Folding classification over any pair list never touches `active`. -/
theorem foldl_classifyPair_active (month : Int) :
    ∀ (ps : List (Nat × Option String)) (st : EngineState),
      (ps.foldl (classifyPair month) st).active = st.active := by
  intro ps
  induction ps with
  | nil => intro st; rfl
  | cons p ps ih =>
    intro st
    rw [List.foldl_cons, ih, classifyPair_active]

/-- One round only filters the active list (line 100): the new active list
is a sublist of the old one. -/
theorem roundStep_active_sublist (net : Net) (st : EngineState) (month : Int) :
    (roundStep net st month).active.Sublist st.active := by
  have h : (roundStep net st month).active =
      ((st.active.zip (api_multi_call net (roundArgs st month))).foldl
        (classifyPair month) st).active.filter
        (fun i => !(((st.active.zip (api_multi_call net (roundArgs st month))).foldl
          (classifyPair month) st).registered.contains i)) := rfl
  rw [h, foldl_classifyPair_active]
  exact List.filter_sublist st.active

/-- `active` only shrinks across any number of leading rounds of any
month list. -/
theorem foldl_roundStep_take_sublist (net : Net) :
    ∀ (l : List Int) (st : EngineState) (k : Nat),
      ((l.take (k + 1)).foldl (roundStep net) st).active.Sublist
        ((l.take k).foldl (roundStep net) st).active := by
  intro l
  induction l with
  | nil =>
    intro st k
    simp only [List.take_nil, List.foldl_nil]
    exact List.Sublist.refl _
  | cons m ms ih =>
    intro st k
    cases k with
    | zero =>
      simp only [List.take_zero, List.foldl_nil, List.take_succ_cons,
        List.take_zero, List.foldl_cons, List.foldl_nil]
      exact roundStep_active_sublist net st m
    | succ k =>
      simp only [List.take_succ_cons, List.foldl_cons]
      exact ih (roundStep net st m) k

/-- The per-round trace has one entry per month in the list. -/
theorem traceAux_length (net : Net) :
    ∀ (ms : List Int) (st : EngineState),
      (traceAux net st ms).length = ms.length := by
  intro ms
  induction ms with
  | nil => intro st; rfl
  | cons m ms ih =>
    intro st
    simp only [traceAux, List.length_cons]
    rw [ih]

/-- If every attempt in the window fails, the retry loop makes exactly
`r` attempts and yields no response. -/
theorem apiCallAux_all_fail (f : Nat → Option String) :
    ∀ (r i : Nat), (∀ j, j < r → f (i + j) = none) →
      apiCallAux f i r = (r, none) := by
  intro r
  induction r with
  | zero => intro i _; rfl
  | succ r ih =>
    intro i hfail
    unfold apiCallAux
    have h0 : f i = none := by simpa using hfail 0 (Nat.succ_pos r)
    rw [h0]
    have := ih (i + 1) (fun j hj => by
      have := hfail (j + 1) (Nat.succ_lt_succ hj)
      simpa [Nat.add_assoc, Nat.add_comm 1 j] using this)
    simp only [this]

/-- If the first success in the window is at offset `k`, the retry loop
makes exactly `k + 1` attempts and returns that response. -/
theorem apiCallAux_first_success (f : Nat → Option String) (s : String) :
    ∀ (r k i : Nat), k < r → (∀ j, j < k → f (i + j) = none) →
      f (i + k) = some s → apiCallAux f i r = (k + 1, some s) := by
  intro r
  induction r with
  | zero => intro k i hk _ _; omega
  | succ r ih =>
    intro k i hk hfail hsucc
    unfold apiCallAux
    cases k with
    | zero =>
      simp only [Nat.add_zero] at hsucc
      rw [hsucc]
    | succ k =>
      have h0 : f i = none := by simpa using hfail 0 (Nat.succ_pos k)
      rw [h0]
      have := ih k (i + 1) (by omega)
        (fun j hj => by
          have := hfail (j + 1) (Nat.succ_lt_succ hj)
          simpa [Nat.add_assoc, Nat.add_comm 1 j] using this)
        (by
          have : i + 1 + k = i + (k + 1) := by omega
          rw [this, hsucc])
      simp only [this]

/-- The retry loop yields no response exactly when every attempt in its
window fails. -/
theorem apiCallAux_none_iff (f : Nat → Option String) :
    ∀ (r i : Nat), (apiCallAux f i r).2 = none ↔ ∀ j, j < r → f (i + j) = none := by
  intro r
  induction r with
  | zero => intro i; simp [apiCallAux]
  | succ r ih =>
    intro i
    unfold apiCallAux
    cases hf : f i with
    | some s =>
      simp only []
      constructor
      · intro h; exact absurd h (by simp)
      · intro h
        have := h 0 (Nat.succ_pos r)
        rw [Nat.add_zero] at this
        rw [hf] at this
        exact absurd this (by simp)
    | none =>
      simp only []
      rw [ih (i + 1)]
      constructor
      · intro h j hj
        cases j with
        | zero => simpa using hf
        | succ j =>
          have := h j (by omega)
          rw [show i + 1 + j = i + (j + 1) by omega] at this
          exact this
      · intro h j hj
        have := h (j + 1) (Nat.succ_lt_succ hj)
        rw [show i + (j + 1) = i + 1 + j by omega] at this
        exact this

/-- The fan-out returns one result per request. -/
theorem api_multi_call_length (net : Net) (args : List ApiArgs) :
    (api_multi_call net args).length = args.length := by
  unfold api_multi_call
  exact List.length_map args _

/-- The `i`-th fan-out result is the retry-loop result of the `i`-th
request descriptor. -/
theorem api_multi_call_getD (net : Net) :
    ∀ (args : List ApiArgs) (i : Nat), i < args.length →
      (api_multi_call net args).getD i none =
        (api_call (net (args.getD i default))).2 := by
  intro args
  induction args with
  | nil => intro i hi; simp at hi
  | cons a as ih =>
    intro i hi
    cases i with
    | zero => rfl
    | succ i =>
      have := ih i (by simpa using Nat.lt_of_succ_lt_succ hi)
      simpa [api_multi_call] using this

/-- `set.add` puts the element in the set. -/
theorem insertId_contains (l : List Nat) (i : Nat) :
    (insertId l i).contains i = true := by
  unfold insertId
  split
  · assumption
  · simp

/-- Setting the month of an in-range heap object is observable at its id. -/
theorem setMonth_getD (hp : List Voter) (i : Nat) (m : Int)
    (hi : i < hp.length) :
    ((setMonth hp i m).getD i default).birth_month = some m := by
  unfold setMonth
  rw [List.getD_eq_getElem?_getD, List.getElem?_set_self hi]
  rfl

/-- C1 (code bug evaluation): with voters `[A (known month 2), B (unknown
month)]` at round month 1, only B's request parameters are dispatched
(the batch is `[1]`), yet `zip(voters, responses)` pairs the single
response — the response to B's request — with voter A (id 0), which is
then classified as registered.  The i-th classified entry is **not** the
entry whose request produced the i-th response. -/
theorem c1_zip_misalignment :
    candidateBatch (initState [voterA, voterB]) 1 = [1] ∧
    roundArgs (initState [voterA, voterB]) 1 = [voterB.get_api_args 1] ∧
    (roundStep netReg (initState [voterA, voterB]) 1).registered = [0] ∧
    voterA.birth_month = some 2 := by
  decide

/-- C2 counterexample: a single voter whose response contains the
registration marker **and** the AV marker is added to
`registered_voters`, but its `birth_month` is left unset (`None`),
contradicting the claim that every registered entry gets
`birthMonth = month` (here the claim would demand `some 1`). -/
theorem c2_counterexample :
    (runEngine netBoth (initState [voterB])).registered = [0] ∧
    ((runEngine netBoth (initState [voterB])).store.getD 0 default).birth_month
      = none := by
  decide

/-- C2 (amended): when the response classified against an entry contains
the registration marker, the entry is added to `registered_voters`; its
`birth_month` is set to the round's month and it is added to
`voters_with_ballots` exactly when the response also lacks the AV
marker; when the AV marker is present, the heap and the target set are
untouched. -/
theorem c2_amended_classification (month : Int) (st : EngineState) (i : Nat)
    (page : String) (hi : i < st.store.length)
    (hreg : containsSub page registeredMarker = true) :
    (classifyPair month st (i, some page)).registered.contains i = true ∧
    (containsSub page avMarker = false →
      ((classifyPair month st (i, some page)).store.getD i default).birth_month
        = some month ∧
      (classifyPair month st (i, some page)).ballots.contains i = true) ∧
    (containsSub page avMarker = true →
      (classifyPair month st (i, some page)).store = st.store ∧
      (classifyPair month st (i, some page)).ballots = st.ballots) := by
  have hred : classifyPair month st (i, some page) =
      (if containsSub page registeredMarker = true then
        if containsSub page avMarker = true then
          { st with registered := insertId st.registered i }
        else
          { st with registered := insertId st.registered i,
                    store := setMonth st.store i month,
                    ballots := insertId st.ballots i }
      else st) := rfl
  rw [hred, if_pos hreg]
  cases hav : containsSub page avMarker with
  | true =>
    rw [if_pos (show (true : Bool) = true from rfl)]
    refine ⟨insertId_contains _ _, ?_, fun _ => ⟨rfl, rfl⟩⟩
    intro hfalse
    exact absurd hfalse (by decide)
  | false =>
    rw [if_neg (show ¬((false : Bool) = true) by decide)]
    refine ⟨insertId_contains _ _, fun _ => ⟨?_, insertId_contains _ _⟩, ?_⟩
    · exact setMonth_getD st.store i month hi
    · intro htrue
      exact absurd htrue (by decide)

/-- C2 amended witness: concrete classification of one voter whose page
carries the registration marker and lacks the AV marker. -/
theorem c2_amended_witness :
    (classifyPair 1 (initState [voterB]) (0, some pageReg)).registered.contains 0
      = true ∧
    ((classifyPair 1 (initState [voterB]) (0, some pageReg)).store.getD 0
      default).birth_month = some 1 ∧
    (classifyPair 1 (initState [voterB]) (0, some pageReg)).ballots.contains 0
      = true := by
  have h := c2_amended_classification 1 (initState [voterB]) 0 pageReg
    (by decide) (by decide)
  have h2 := h.2.1 (by decide)
  exact ⟨h.1, h2.1, h2.2⟩

/-- C3 counterexample: with two unknown-month voters born 1990 and 1985,
both resolved in round 1, `get_voters_with_absentee_ballots` returns
them in accumulation order `[1990, 1985]` — not ascending by birth
year.  The engine returns `list(voters_with_ballots)` unsorted; sorting
happens only in the caller. -/
theorem c3_counterexample :
    (get_voters_with_absentee_ballots netReg [voterX, voterY]).map
      Voter.birth_year = [1990, 1985] ∧
    ¬ List.Chain' (fun a b : Voter => a.birth_year ≤ b.birth_year)
      (get_voters_with_absentee_ballots netReg [voterX, voterY]) := by
  constructor
  · decide
  · have hres : get_voters_with_absentee_ballots netReg [voterX, voterY] =
        [⟨"Xena", "Young", some 1, 1990, "48104"⟩,
         ⟨"Yuri", "Zed", some 1, 1985, "48105"⟩] := by decide
    rw [hres]
    intro hch
    rcases List.chain'_cons.mp hch with ⟨hle, -⟩
    exact absurd hle (by decide)

/-- C3 (amended): the engine's search operation returns the target group
in no particular order; the caller `get_voters_with_ballots` sorts by
ascending `birth_year`, so the sorted sequence it produces is a
permutation of the engine's target group, ordered by birth year. -/
theorem c3_caller_sorts (net : Net) (voters : List Voter) :
    List.Pairwise (fun a b : Voter => a.birth_year ≤ b.birth_year)
      (get_voters_with_ballots net voters) ∧
    (get_voters_with_ballots net voters).Perm
      (get_voters_with_absentee_ballots net voters) := by
  constructor
  · have h := @List.sorted_mergeSort Voter
      (fun a b : Voter => decide (a.birth_year ≤ b.birth_year))
      (fun a b c hab hbc => by
        simp only [decide_eq_true_eq] at hab hbc ⊢
        exact le_trans hab hbc)
      (fun a b => by
        simp only [Bool.or_eq_true, decide_eq_true_eq]
        exact le_total a.birth_year b.birth_year)
      (get_voters_with_absentee_ballots net voters)
    refine List.Pairwise.imp ?_ h
    intro a b hab
    exact of_decide_eq_true hab
  · exact List.mergeSort_perm (get_voters_with_absentee_ballots net voters) _

/-- C4 counterexample: two voters differing only in `birth_month` have
equal hash keys, but they do **not** compare equal — `Voter` defines
`__hash__` without `__eq__`, so `==` is reference identity and two
distinct objects (heap ids 0 and 1) are unequal. -/
theorem c4_counterexample :
    voterM1.birth_month ≠ voterM2.birth_month ∧
    voterM1.first = voterM2.first ∧ voterM1.last = voterM2.last ∧
    voterM1.birth_year = voterM2.birth_year ∧ voterM1.zip = voterM2.zip ∧
    voterHashKey voterM1 = voterHashKey voterM2 ∧
    pyVoterEq [voterM1, voterM2] 0 1 = false := by
  decide

/-- C4 (amended): entries agreeing on `first`, `last`, `birthYear` and
`zip` hash to the same value (equal hash keys) regardless of month; but
equality of entries is reference identity — two entry objects compare
equal exactly when they are the same object. -/
theorem c4_amended_identity (v1 v2 : Voter) (hp : List Voter) (i j : Nat)
    (h1 : v1.first = v2.first) (h2 : v1.last = v2.last)
    (h3 : v1.birth_year = v2.birth_year) (h4 : v1.zip = v2.zip) :
    voterHashKey v1 = voterHashKey v2 ∧ (pyVoterEq hp i j = true ↔ i = j) := by
  constructor
  · unfold voterHashKey
    rw [h1, h2, h3, h4]
  · simp [pyVoterEq]

/-- C4 amended witness: instantiation at the two concrete voters. -/
theorem c4_amended_witness :
    voterHashKey voterM1 = voterHashKey voterM2 ∧
    (pyVoterEq [voterM1, voterM2] 0 0 = true ↔ 0 = 0) :=
  c4_amended_identity voterM1 voterM2 [voterM1, voterM2] 0 0 rfl rfl rfl rfl

/-- C5: a request whose every attempt fails is retried exactly 5 times
(`range(5)`) and only then yields `None`; a request succeeding on
attempt `k+1` (0-based index `k`) makes exactly `k+1` attempts and
returns the response text. -/
theorem c5_retry_counts :
    (∀ f : Nat → Option String, (∀ i, i < 5 → f i = none) →
      api_call f = (5, none)) ∧
    (∀ (f : Nat → Option String) (k : Nat) (s : String), k < 5 →
      (∀ i, i < k → f i = none) → f k = some s →
      api_call f = (k + 1, some s)) := by
  constructor
  · intro f h
    unfold api_call
    exact apiCallAux_all_fail f 5 0 (fun j hj => by simpa using h j hj)
  · intro f k s hk hfail hsucc
    unfold api_call
    exact apiCallAux_first_success f s 5 k 0 hk
      (fun j hj => by simpa using hfail j hj) (by simpa using hsucc)

/-- C5 witness: the always-failing stub makes 5 attempts and yields
`None`; a stub succeeding on its third attempt makes 3 attempts. -/
theorem c5_retry_counts_witness :
    api_call attemptsFail = (5, none) ∧
    api_call attemptsThird = (3, some "ok") := by
  constructor
  · exact c5_retry_counts.1 attemptsFail (fun i _ => rfl)
  · exact c5_retry_counts.2 attemptsThird 2 "ok" (by omega)
      (fun i hi => by
        unfold attemptsThird
        rw [if_neg (by omega)])
      rfl

/-- C6: the fan-out returns exactly one result per request descriptor,
in input order — the `i`-th result is the retry-loop outcome of the
`i`-th descriptor, and it is the absent marker exactly when all 5
attempts for that descriptor fail. -/
theorem c6_fanout_alignment (net : Net) (args : List ApiArgs) (i : Nat)
    (h : i < args.length) :
    (api_multi_call net args).length = args.length ∧
    (api_multi_call net args).getD i none =
      (api_call (net (args.getD i default))).2 ∧
    ((api_multi_call net args).getD i none = none ↔
      ∀ j, j < 5 → net (args.getD i default) j = none) := by
  refine ⟨api_multi_call_length net args, api_multi_call_getD net args i h, ?_⟩
  rw [api_multi_call_getD net args i h]
  unfold api_call
  have hiff := apiCallAux_none_iff (net (args.getD i default)) 5 0
  simpa using hiff

/-- C6 witness: a single always-failing descriptor yields a one-element
result list whose only entry is the absent marker. -/
theorem c6_fanout_alignment_witness :
    (api_multi_call netFail [voterB.get_api_args 1]).length =
      ([voterB.get_api_args 1] : List ApiArgs).length ∧
    (api_multi_call netFail [voterB.get_api_args 1]).getD 0 none =
      (api_call (netFail (([voterB.get_api_args 1] : List ApiArgs).getD 0
        default))).2 ∧
    ((api_multi_call netFail [voterB.get_api_args 1]).getD 0 none = none ↔
      ∀ j, j < 5 →
        netFail (([voterB.get_api_args 1] : List ApiArgs).getD 0 default) j
          = none) :=
  c6_fanout_alignment netFail [voterB.get_api_args 1] 0 (by decide)

/-- C7: the active working set after round `m+1` is a sublist (hence a
subset, and no larger) of the active working set after round `m`: the
round-end update (line 100) only filters entries out, never adds any. -/
theorem c7_active_shrinks (net : Net) (st : EngineState) (k : Nat) :
    (afterRounds net st (k + 1)).active.Sublist (afterRounds net st k).active ∧
    (afterRounds net st (k + 1)).active.length ≤
      (afterRounds net st k).active.length := by
  have h := foldl_roundStep_take_sublist net months st k
  exact ⟨h, h.length_le⟩

/-- C8 counterexample: with an empty input the active set is empty from
the start, yet the month loop still executes all 12 rounds — there is
no early exit (`for month in range(1, 13)` has no `break`), so the loop
does not terminate earlier once `active` is empty. -/
theorem c8_counterexample :
    (initState []).active = [] ∧
    (roundStates netFail (initState [])).length = 12 ∧
    ¬ (roundStates netFail (initState [])).length < 12 := by
  refine ⟨rfl, by decide, by decide⟩

/-- C8 (amended): the month loop always terminates after exactly 12
rounds, one per month 1..12 in strictly increasing order; it never
exits early (a round with an empty active set dispatches no requests
but still runs). -/
theorem c8_always_twelve_rounds (net : Net) (st : EngineState) :
    (roundStates net st).length = 12 ∧ months.length = 12 ∧
    List.Chain' (fun a b : Int => a < b) months ∧
    months.getD 0 0 = 1 ∧ months.getD 11 0 = 12 := by
  refine ⟨?_, by decide, ?_, by decide, by decide⟩
  · unfold roundStates
    rw [traceAux_length]
    decide
  · show List.Chain' _ ((List.range 12).map fun i => (i : Int) + 1)
    simp only [List.chain'_map]
    have : List.range 12 = [0, 1, 2, 3, 4, 5, 6, 7, 8, 9, 10, 11] := by decide
    rw [this]
    repeat constructor

/-- A serialized voter re-serializes identically after normalising a
falsy month, since `__str__` prints both `None` and `0` as "Unknown". -/
theorem serialize_normalize (v : Voter) :
    serialize ⟨v.first, v.last,
      (v.birth_month.bind fun mm => if mm = 0 then none else some mm),
      v.birth_year, v.zip⟩ = serialize v := by
  have hms : monthStr (v.birth_month.bind fun mm => if mm = 0 then none else some mm)
      = monthStr v.birth_month := by
    cases hbm : v.birth_month with
    | none => rfl
    | some m =>
      by_cases h0 : m = 0
      · subst h0; rfl
      · simp [Option.bind, h0]
  unfold serialize
  simp only [hms]

/-- C9: for any entry constructed by parsing (hence with comma-free
string fields) that carries a resolved month,
`serialize(parse(serialize(e))) = serialize(e)`; and serialization
renders an absent month as the literal "Unknown" field. -/
theorem c9_roundtrip :
    (∀ (r : String) (v : Voter) (m : Int), parse r = some v →
      v.birth_month = some m →
      ∃ v2, parse (serialize v) = some v2 ∧ serialize v2 = serialize v) ∧
    (∀ v : Voter, v.birth_month = none →
      (serialize v).toList =
        joinComma [v.first.toList, v.last.toList, "Unknown".toList,
          intToChars v.birth_year, v.zip.toList]) := by
  constructor
  · intro r v m hr hm
    obtain ⟨h1, h2, h3⟩ := parse_fields_no_comma r v hr
    exact ⟨_, parse_serialize v h1 h2 h3, serialize_normalize v⟩
  · intro v hm
    unfold serialize
    rw [hm]
    rfl

/-- C9 witness: round trip at a concrete parsed voter with month 5. -/
theorem c9_roundtrip_witness :
    ∃ v2, parse (serialize ⟨"John", "Doe", some 5, 1950, "48104"⟩) = some v2 ∧
      serialize v2 = serialize ⟨"John", "Doe", some 5, 1950, "48104"⟩ :=
  c9_roundtrip.1 "John,Doe,5,1950,48104" ⟨"John", "Doe", some 5, 1950, "48104"⟩
    5 (by decide) rfl

/-- C10: entry construction performs no 1..12 range check on the month —
any 5-field record whose third field is a decimal integer parses, the
value (0, 13, negative, ...) being stored verbatim; and a record with
month field "0" stores month 0, which then serializes as "Unknown" (0
is falsy in `__str__`). -/
theorem c10_no_month_validation :
    (∀ (f l z : String) (y m : Int),
      ',' ∉ f.toList → ',' ∉ l.toList → ',' ∉ z.toList →
      parse (String.mk (joinComma [f.toList, l.toList, intToChars m,
        intToChars y, z.toList])) = some ⟨f, l, some m, y, z⟩) ∧
    ((parse "John,Doe,0,1950,48104").map Voter.birth_month = some (some 0) ∧
     (parse "John,Doe,0,1950,48104").map serialize =
       some "John,Doe,Unknown,1950,48104") := by
  constructor
  · intro f l z y m h1 h2 h3
    have hsplit : splitComma (String.mk (joinComma [f.toList, l.toList,
        intToChars m, intToChars y, z.toList])).toList =
        [f.toList, l.toList, intToChars m, intToChars y, z.toList] := by
      show splitComma (joinComma _) = _
      apply splitComma_joinComma _ (by simp)
      intro p hp
      simp only [List.mem_cons, List.not_mem_nil, or_false] at hp
      rcases hp with h | h | h | h | h
      · exact h ▸ h1
      · exact h ▸ h2
      · exact h ▸ intToChars_no_comma m
      · exact h ▸ intToChars_no_comma y
      · exact h ▸ h3
    have hps : parse (String.mk (joinComma [f.toList, l.toList, intToChars m,
        intToChars y, z.toList])) =
        (match charsToInt? (intToChars y) with
         | some yi =>
           if intToChars m = "Unknown".toList ∨ intToChars m = [] then
             some ⟨String.mk f.toList, String.mk l.toList, none, yi,
               String.mk z.toList⟩
           else
             match charsToInt? (intToChars m) with
             | some mi =>
               some ⟨String.mk f.toList, String.mk l.toList, some mi, yi,
                 String.mk z.toList⟩
             | none => none
         | none => none) := by
      unfold parse
      rw [hsplit]
    rw [charsToInt?_intToChars] at hps
    have hps2 : parse (String.mk (joinComma [f.toList, l.toList, intToChars m,
        intToChars y, z.toList])) =
        (if intToChars m = "Unknown".toList ∨ intToChars m = [] then
          some ⟨f, l, none, y, z⟩
         else
          match charsToInt? (intToChars m) with
          | some mi => some ⟨f, l, some mi, y, z⟩
          | none => none) := hps
    rw [hps2, if_neg (intToChars_not_unknown m), charsToInt?_intToChars]
  · constructor
    · decide
    · decide

/-- C10 witness: a record with out-of-range month 13 parses and stores
month 13 verbatim. -/
theorem c10_witness :
    parse (String.mk (joinComma ["John".toList, "Doe".toList, intToChars 13,
      intToChars 1950, "48104".toList])) =
      some ⟨"John", "Doe", some 13, 1950, "48104"⟩ :=
  c10_no_month_validation.1 "John" "Doe" "48104" 1950 13
    (by decide) (by decide) (by decide)
